import Mathlib

/-!
Verification of the route-guide request handlers
(`src/route_guide_server.js`) against their specification.

The JavaScript source is shallowly embedded:

* protobuf `Point` messages carry two signed integers (`latitude`,
  `longitude`, degrees scaled by 10^7), modelled with `ℤ`;
* JavaScript numbers appearing in the haversine computation are modelled
  with `ℝ`; the single `NaN` that can arise (from an `undefined` field of
  a malformed input message) is modelled by `Option ℝ` with `none` = NaN;
* the `route_notes` object is modelled as an insertion-ordered
  association list; the `data` callbacks of the Node event loop run to
  completion, so concurrent streams interleave whole per-message steps;
* `distance|0` is JavaScript `ToInt32`: truncate toward zero, then wrap
  into the signed 32-bit range (`NaN|0 = 0`).

Two identifiers used by the source are not defined in the file under
`src/` (`COORD_FACTOR`, `pointKey`); they are modelled from the spec and
marked as such in their doc comments.
-/

namespace RouteGuide

/-- A protobuf point: latitude/longitude in degrees times 10^7. -/
structure Point where
  latitude : ℤ
  longitude : ℤ
deriving DecidableEq, Repr

/-- A named feature at a point; an empty name means "no feature here". -/
structure Feature where
  name : String
  location : Point
deriving DecidableEq, Repr

/-- Two opposite corners of a bounding box (not necessarily ordered). -/
structure Rectangle where
  lo : Point
  hi : Point
deriving DecidableEq, Repr

/-- A chat message attached to a location. -/
structure RouteNote where
  location : Point
  message : String
deriving DecidableEq, Repr

/-- An incoming point message as the `recordRoute` handler sees it: either
field may be absent (`undefined` in JavaScript). -/
structure PointMsg where
  latitude : Option ℤ
  longitude : Option ℤ
deriving DecidableEq, Repr

/-- A well-formed point viewed as an incoming message (both fields set). -/
def Point.toMsg (p : Point) : PointMsg :=
  { latitude := some p.latitude, longitude := some p.longitude }

/-- Result of `checkFeature` when applied to a raw incoming message. -/
structure FeatureMsg where
  name : String
  location : PointMsg
deriving DecidableEq, Repr

/-- The reply of `recordRoute`: accumulated counts, distance (after the
`|0` cast, hence an integer that fits the signed 32-bit range) and elapsed
seconds. -/
structure RouteSummary where
  point_count : ℕ
  feature_count : ℕ
  distance : ℤ
  elapsed_time : ℕ
deriving DecidableEq, Repr

/-- Embedding of `checkFeature` (source lines 22-37): scan `feature_list`
in order, return the first feature whose location equals the query on both
fields, otherwise a synthetic feature with empty name at the query point. -/
def checkFeature : List Feature → Point → Feature
  | [], p => { name := "", location := p }
  | f :: rest, p =>
    if f.location.latitude = p.latitude ∧ f.location.longitude = p.longitude then f
    else checkFeature rest p

/-- Embedding of `checkFeature` as applied by `recordRoute` to a raw
message whose fields may be `undefined`: the strict equality
`feature.location.latitude === point.latitude` holds only when the message
field is present and equal. -/
def checkFeatureMsg : List Feature → PointMsg → FeatureMsg
  | [], p => { name := "", location := p }
  | f :: rest, p =>
    if some f.location.latitude = p.latitude ∧ some f.location.longitude = p.longitude then
      { name := f.name, location := f.location.toMsg }
    else checkFeatureMsg rest p

/-- Embedding of `listFeatures` (source lines 57-77): normalize the
rectangle with min/max, then walk the feature list, writing every feature
with a non-empty name whose coordinates lie within the inclusive bounds.
The returned list is the sequence of `call.write` frames in order. -/
def listFeatures (fl : List Feature) (rect : Rectangle) : List Feature :=
  let left := min rect.lo.longitude rect.hi.longitude
  let right := max rect.lo.longitude rect.hi.longitude
  let top := max rect.lo.latitude rect.hi.latitude
  let bottom := min rect.lo.latitude rect.hi.latitude
  fl.foldl
    (fun out f =>
      if f.name = "" then out
      else
        if left ≤ f.location.longitude ∧ f.location.longitude ≤ right ∧
            bottom ≤ f.location.latitude ∧ f.location.latitude ≤ top then
          out ++ [f]
        else out)
    []

/-- Spec-side membership predicate of §4.2 (RegionFilter.inRegion): name
non-empty and longitude in [left,right], latitude in [bottom,top], all
bounds inclusive. Stated from the spec's words for comparison with the
embedded `listFeatures`. -/
def inRegionSpec (rect : Rectangle) (f : Feature) : Prop :=
  f.name ≠ "" ∧
  min rect.lo.longitude rect.hi.longitude ≤ f.location.longitude ∧
  f.location.longitude ≤ max rect.lo.longitude rect.hi.longitude ∧
  min rect.lo.latitude rect.hi.latitude ≤ f.location.latitude ∧
  f.location.latitude ≤ max rect.lo.latitude rect.hi.latitude

instance (rect : Rectangle) (f : Feature) : Decidable (inRegionSpec rect f) := by
  unfold inRegionSpec; infer_instance

/-- Key of the `route_notes` object. Modelled from the spec: the source
calls `pointKey(note.location)` but `pointKey` is not defined in the file
under `src/`; §3 requires "a coordinate key (a string or tuple uniquely
derived from `(latitude, longitude)`)", so the key is the pair itself. -/
def pointKey (p : Point) : ℤ × ℤ :=
  (p.latitude, p.longitude)

/-- The `route_notes` object: a JavaScript object keyed by `pointKey`,
modelled as an insertion-ordered association list. -/
abbrev Registry := List ((ℤ × ℤ) × List RouteNote)

/-- Property read `route_notes[key]` (with `hasOwnProperty` = `isSome`). -/
def regGet : Registry → ℤ × ℤ → Option (List RouteNote)
  | [], _ => none
  | (k, v) :: rest, key => if k = key then some v else regGet rest key

/-- Property write `route_notes[key] = v` (existing key updated in place,
new key appended, matching object insertion order). -/
def regSet : Registry → ℤ × ℤ → List RouteNote → Registry
  | [], key, v => [(key, v)]
  | (k, w) :: rest, key, v =>
    if k = key then (k, v) :: rest else (k, w) :: regSet rest key v

/-- Embedding of one `data` event of `routeChat` (source lines 149-162):
returns the notes written back to the caller (the stored history of the
key, in order) and the registry after the deep copy of the incoming note
is pushed. A missing key is first set to the empty array. Deep
copy via `JSON.parse(JSON.stringify(...))` is the identity on the value. -/
def routeChatData (reg : Registry) (note : RouteNote) : List RouteNote × Registry :=
  let key := pointKey note.location
  match regGet reg key with
  | some notes => (notes, regSet reg key (notes ++ [note]))
  | none => ([], regSet (regSet reg key []) key [note])

/-- Replies observed by a trace of `routeChat` `data` events processed by
the single-threaded event loop: each per-note step runs to completion, so
an arbitrary interleaving of concurrent streams is a list of notes. -/
def routeChatReplies (reg : Registry) : List RouteNote → List (List RouteNote)
  | [] => []
  | n :: rest =>
    (routeChatData reg n).1 :: routeChatReplies (routeChatData reg n).2 rest

/-- Default note used for positional indexing in trace statements. -/
def defNote : RouteNote :=
  { location := { latitude := 0, longitude := 0 }, message := "" }

/-- Scaling factor between wire integers and degrees. Modelled from the
spec: the source divides by `COORD_FACTOR`, which is not defined in the
file under `src/`; §3 fixes the factor at 10,000,000. -/
def COORD_FACTOR : ℝ := 10000000

/-- Embedding of the inner `toRadians` helper of `getDistance`. -/
noncomputable def toRadians (num : ℝ) : ℝ :=
  num * Real.pi / 180

/-- JavaScript `Math.atan2(y, x)` on real (non-NaN) arguments. -/
noncomputable def atan2 (y x : ℝ) : ℝ :=
  if 0 < x then Real.arctan (y / x)
  else if x = 0 then
    if 0 < y then Real.pi / 2 else if y < 0 then -(Real.pi / 2) else 0
  else if 0 ≤ y then Real.arctan (y / x) + Real.pi
  else Real.arctan (y / x) - Real.pi

/-- The haversine intermediate `a` of `getDistance` (source lines 137-139)
with `deltalat = lat2 - lat1` and `deltalon = lon2 - lon1` inlined. -/
noncomputable def havA (lat1 lat2 lon1 lon2 : ℝ) : ℝ :=
  Real.sin ((lat2 - lat1) / 2) * Real.sin ((lat2 - lat1) / 2) +
    Real.cos lat1 * Real.cos lat2 * Real.sin ((lon2 - lon1) / 2) *
      Real.sin ((lon2 - lon1) / 2)

/-- Embedding of `getDistance` (source lines 125-142): haversine distance
in meters between two points, with Earth radius 6,371,000 m. JavaScript
`number`s are idealized as reals (for any real inputs `havA` lies in
[0,1], so no `NaN` arises on well-formed points). -/
noncomputable def getDistance (start finish : Point) : ℝ :=
  let lat1 := toRadians ((start.latitude : ℝ) / COORD_FACTOR)
  let lat2 := toRadians ((finish.latitude : ℝ) / COORD_FACTOR)
  let lon1 := toRadians ((start.longitude : ℝ) / COORD_FACTOR)
  let lon2 := toRadians ((finish.longitude : ℝ) / COORD_FACTOR)
  let a := havA lat1 lat2 lon1 lon2
  6371000 * (2 * atan2 (Real.sqrt a) (Real.sqrt (1 - a)))

/-- `getDistance` as invoked on raw incoming messages: an `undefined`
field makes every following arithmetic step `NaN`, modelled by `none`. -/
noncomputable def getDistanceMsg (start finish : PointMsg) : Option ℝ :=
  match start.latitude, start.longitude, finish.latitude, finish.longitude with
  | some a, some b, some c, some d =>
    some (getDistance { latitude := a, longitude := b } { latitude := c, longitude := d })
  | _, _, _, _ => none

/-- JavaScript `+` on possibly-NaN numbers: NaN absorbs. -/
def jsAdd : Option ℝ → Option ℝ → Option ℝ
  | some x, some y => some (x + y)
  | _, _ => none

/-- Truncation toward zero of a real to an integer. -/
noncomputable def truncTowardZero (x : ℝ) : ℤ :=
  if 0 ≤ x then ⌊x⌋ else ⌈x⌉

/-- JavaScript `x|0` on a real (finite) number: `ToInt32`, i.e. truncate
toward zero then wrap into the signed 32-bit range. -/
noncomputable def toInt32 (x : ℝ) : ℤ :=
  (truncTowardZero x + 2147483648) % 4294967296 - 2147483648

/-- JavaScript `x|0` including the NaN case: `NaN|0 = 0`. -/
noncomputable def jsToInt32 : Option ℝ → ℤ
  | none => 0
  | some x => toInt32 x

/-- The mutable locals of the `recordRoute` handler (source lines 87-90). -/
structure RecAcc where
  point_count : ℕ
  feature_count : ℕ
  dist : Option ℝ
  previous : Option PointMsg

/-- One `data` event of `recordRoute` (source lines 93-104): count the
point, count a named feature match, and for every point after the first
add the incremental distance from the previous point. -/
noncomputable def recordStep (fl : List Feature) (s : RecAcc) (point : PointMsg) : RecAcc :=
  { point_count := s.point_count + 1
    feature_count :=
      if (checkFeatureMsg fl point).name ≠ "" then s.feature_count + 1
      else s.feature_count
    dist :=
      match s.previous with
      | none => s.dist
      | some prev => jsAdd s.dist (getDistanceMsg prev point)
    previous := some point }

/-- Embedding of the whole `recordRoute` handler (source lines 86-115):
fold the incoming stream through `recordStep` (counts 0, distance 0, no
previous point initially) and build the summary on the `end` event, with
the accumulated distance cast by `|0` once at the end. The elapsed
wall-clock seconds measured by `process.hrtime` are an input parameter. -/
noncomputable def recordRoute (fl : List Feature) (msgs : List PointMsg)
    (elapsed : ℕ) : RouteSummary :=
  let s := msgs.foldl (recordStep fl)
    { point_count := 0, feature_count := 0, dist := some 0, previous := none }
  { point_count := s.point_count
    feature_count := s.feature_count
    distance := jsToInt32 s.dist
    elapsed_time := elapsed }

/-- Sum of segment distances from a current point through a list. -/
noncomputable def segSum : Point → List Point → ℝ
  | _, [] => 0
  | prev, p :: rest => getDistance prev p + segSum p rest

/-- Accumulated (exact, untruncated) sum of the segment distances of a
stream of points: the spec-level quantity `recordRoute` accumulates. -/
noncomputable def pairSum : List Point → ℝ
  | [] => 0
  | p :: rest => segSum p rest

/-- Origin point (0, 0). -/
def originPt : Point := { latitude := 0, longitude := 0 }

/-- The point antipodal to the origin along the equator: longitude 180
degrees, i.e. raw value 1,800,000,000. -/
def antipodePt : Point := { latitude := 0, longitude := 1800000000 }

/-- A list of n points alternating between `originPt` and `antipodePt`,
starting with `antipodePt` when the flag is true. -/
def altList : ℕ → Bool → List Point
  | 0, _ => []
  | n + 1, b => (if b then antipodePt else originPt) :: altList n (!b)

/-! ## Helper lemmas -/

theorem checkFeatureMsg_toMsg (fl : List Feature) (p : Point) :
    (checkFeatureMsg fl p.toMsg).name = (checkFeature fl p).name := by
  induction fl with
  | nil => rfl
  | cons f rest ih =>
    have hc : (some f.location.latitude = p.toMsg.latitude ∧
        some f.location.longitude = p.toMsg.longitude) ↔
        (f.location.latitude = p.latitude ∧ f.location.longitude = p.longitude) := by
      simp [Point.toMsg]
    by_cases h : f.location.latitude = p.latitude ∧ f.location.longitude = p.longitude
    · simp only [checkFeatureMsg, checkFeature]
      rw [if_pos (hc.mpr h), if_pos h]
    · simp only [checkFeatureMsg, checkFeature]
      rw [if_neg (fun hcc => h (hc.mp hcc)), if_neg h, ih]

theorem jsToInt32_zero : jsToInt32 (some 0) = 0 := by
  simp only [jsToInt32, toInt32, truncTowardZero, le_refl, if_pos, Int.floor_zero]
  omega

theorem listFeatures_go (rect : Rectangle) (fl : List Feature) :
    ∀ acc : List Feature,
      fl.foldl
        (fun out f =>
          if f.name = "" then out
          else
            if min rect.lo.longitude rect.hi.longitude ≤ f.location.longitude ∧
                f.location.longitude ≤ max rect.lo.longitude rect.hi.longitude ∧
                min rect.lo.latitude rect.hi.latitude ≤ f.location.latitude ∧
                f.location.latitude ≤ max rect.lo.latitude rect.hi.latitude then
              out ++ [f]
            else out)
        acc = acc ++ fl.filter (fun f => decide (inRegionSpec rect f)) := by
  induction fl with
  | nil => simp
  | cons f rest ih =>
    intro acc
    simp only [List.foldl_cons, List.filter_cons]
    by_cases h1 : f.name = ""
    · have hns : decide (inRegionSpec rect f) = false := by
        simp [inRegionSpec, h1]
      rw [hns, if_pos h1, ih]
      simp
    · by_cases h2 : min rect.lo.longitude rect.hi.longitude ≤ f.location.longitude ∧
          f.location.longitude ≤ max rect.lo.longitude rect.hi.longitude ∧
          min rect.lo.latitude rect.hi.latitude ≤ f.location.latitude ∧
          f.location.latitude ≤ max rect.lo.latitude rect.hi.latitude
      · have hs : decide (inRegionSpec rect f) = true := by
          rw [decide_eq_true_eq]
          exact ⟨h1, h2.1, h2.2.1, h2.2.2.1, h2.2.2.2⟩
        rw [hs, if_neg h1, if_pos h2, ih]
        simp
      · have hns : decide (inRegionSpec rect f) = false := by
          rw [decide_eq_false_iff_not]
          intro hc
          exact h2 ⟨hc.2.1, hc.2.2.1, hc.2.2.2.1, hc.2.2.2.2⟩
        rw [hns, if_neg h1, if_neg h2, ih]
        simp

theorem listFeatures_eq_filterL (fl : List Feature) (rect : Rectangle) :
    listFeatures fl rect = fl.filter (fun f => decide (inRegionSpec rect f)) :=
  listFeatures_go rect fl []

theorem regGet_regSet_self (reg : Registry) (k : ℤ × ℤ) (v : List RouteNote) :
    regGet (regSet reg k v) k = some v := by
  induction reg with
  | nil => simp [regSet, regGet]
  | cons kw rest ih =>
    obtain ⟨k1, w⟩ := kw
    by_cases h : k1 = k
    · simp [regSet, regGet, h]
    · simp [regSet, regGet, h, ih]

theorem regGet_regSet_ne (reg : Registry) (k k2 : ℤ × ℤ) (v : List RouteNote)
    (h : k2 ≠ k) : regGet (regSet reg k v) k2 = regGet reg k2 := by
  induction reg with
  | nil => simp [regSet, regGet, Ne.symm h]
  | cons kw rest ih =>
    obtain ⟨k1, w⟩ := kw
    by_cases h1 : k1 = k
    · subst h1
      simp [regSet, regGet, Ne.symm h]
    · simp [regSet, regGet, h1, ih]

theorem routeChatData_fst (reg : Registry) (note : RouteNote) :
    (routeChatData reg note).1 = (regGet reg (pointKey note.location)).getD [] := by
  unfold routeChatData
  cases h : regGet reg (pointKey note.location) <;> simp [h]

theorem routeChatData_stored (reg : Registry) (note : RouteNote) :
    regGet (routeChatData reg note).2 (pointKey note.location) =
      some ((routeChatData reg note).1 ++ [note]) := by
  unfold routeChatData
  cases h : regGet reg (pointKey note.location) <;>
    simp [h, regGet_regSet_self]

theorem routeChatData_other (reg : Registry) (note : RouteNote) (k : ℤ × ℤ)
    (h : k ≠ pointKey note.location) :
    regGet (routeChatData reg note).2 k = regGet reg k := by
  unfold routeChatData
  cases hg : regGet reg (pointKey note.location) <;>
    simp [hg, regGet_regSet_ne _ _ _ _ h]

theorem replies_nonempty (tr : List RouteNote) :
    ∀ (reg : Registry) (k : ℤ × ℤ) (l : List RouteNote),
      regGet reg k = some l → l ≠ [] →
      ∀ j : ℕ, j < tr.length → pointKey ((tr.getD j defNote).location) = k →
        (routeChatReplies reg tr).getD j [] ≠ [] := by
  induction tr with
  | nil =>
    intro reg k l _ _ j hj
    simp at hj
  | cons n rest ih =>
    intro reg k l hget hne j hj hkey
    cases j with
    | zero =>
      simp only [List.getD_cons_zero] at hkey
      simp only [routeChatReplies, List.getD_cons_zero, routeChatData_fst, hkey, hget,
        Option.getD_some]
      exact hne
    | succ j' =>
      simp only [List.getD_cons_succ] at hkey
      simp only [routeChatReplies, List.getD_cons_succ]
      by_cases hk : k = pointKey n.location
      · refine ih (routeChatData reg n).2 k ((routeChatData reg n).1 ++ [n]) ?_ (by simp)
          j' (by simpa using hj) hkey
        rw [hk]
        exact routeChatData_stored reg n
      · exact ih (routeChatData reg n).2 k l
          ((routeChatData_other reg n k hk).trans hget) hne
          j' (by simpa using hj) hkey

/-! ## Claim theorems: discrete handlers -/

/-- C1: `checkFeature` scans the loaded feature collection in order and
returns the first feature whose location equals the queried point on both
fields; if none matches it returns a synthetic feature with empty name at
the queried location — a normal value, not an error (the function is
total). -/
theorem checkFeature_first_match (fl : List Feature) (p : Point) :
    checkFeature fl p =
      (fl.find? (fun f =>
        decide (f.location.latitude = p.latitude ∧ f.location.longitude = p.longitude))).getD
        { name := "", location := p } := by
  induction fl with
  | nil => rfl
  | cons f rest ih =>
    by_cases h : f.location.latitude = p.latitude ∧ f.location.longitude = p.longitude
    · simp [checkFeature, h, List.find?_cons]
    · simp [checkFeature, h, List.find?_cons, ih]

/-- C2: one `data` event of `routeChat` replies with exactly the notes
previously stored under the key of the note's location, in insertion
order (the incoming note is not part of its own reply), and afterwards
the key's stored sequence is that history with the new note appended
(a fresh empty sequence having been created when the key had none). -/
theorem routeChat_history_then_append (reg : Registry) (note : RouteNote) :
    (routeChatData reg note).1 = (regGet reg (pointKey note.location)).getD [] ∧
    regGet (routeChatData reg note).2 (pointKey note.location) =
      some ((routeChatData reg note).1 ++ [note]) :=
  ⟨routeChatData_fst reg note, routeChatData_stored reg note⟩

/-- C6: `listFeatures` emits a feature exactly when its name is non-empty
and its longitude lies in [left, right] and its latitude in [bottom, top],
all bounds inclusive, and the emitted features keep dataset order (the
output is the filter of the dataset by the spec's in-region predicate). -/
theorem listFeatures_eq_filter (fl : List Feature) (rect : Rectangle) :
    listFeatures fl rect = fl.filter (fun f => decide (inRegionSpec rect f)) :=
  listFeatures_eq_filterL fl rect

/-- C7: swapping the two corners of the rectangle leaves the emitted
feature stream (hence its set of features) unchanged, because the bounds
are derived with min/max. -/
theorem listFeatures_swap (fl : List Feature) (lo hi : Point) :
    listFeatures fl { lo := lo, hi := hi } = listFeatures fl { lo := hi, hi := lo } := by
  rw [listFeatures_eq_filterL, listFeatures_eq_filterL]
  simp only [inRegionSpec, min_comm, max_comm]

/-- C9: in any interleaved trace of `routeChat` `data` events (each event
is atomic: the Node event loop runs the handler to completion), once a
note has been stored for a key, every later event at the same key
observes a non-empty history — two events at one key never both see an
empty history. -/
theorem routeChat_no_double_empty (reg : Registry) (tr : List RouteNote) (i j : ℕ)
    (hij : i < j) (hj : j < tr.length)
    (hkey : pointKey ((tr.getD i defNote).location) =
      pointKey ((tr.getD j defNote).location)) :
    (routeChatReplies reg tr).getD j [] ≠ [] := by
  induction tr generalizing reg i j with
  | nil => simp at hj
  | cons n rest ih =>
    cases j with
    | zero => omega
    | succ j' =>
      simp only [List.getD_cons_succ] at hkey
      simp only [routeChatReplies, List.getD_cons_succ]
      cases i with
      | zero =>
        simp only [List.getD_cons_zero] at hkey
        exact replies_nonempty rest (routeChatData reg n).2 (pointKey n.location) _
          (routeChatData_stored reg n) (by simp) j' (by simpa using hj) hkey.symm
      | succ i' =>
        exact ih (routeChatData reg n).2 i' j' (by omega) (by simpa using hj) hkey

/-- C9 witness: two notes at location (5,5); the second observes the
first as non-empty history. -/
theorem routeChat_no_double_empty_witness :
    (0 : ℕ) < 1 ∧
    (1 : ℕ) < ([{ location := { latitude := 5, longitude := 5 }, message := "N1" },
      { location := { latitude := 5, longitude := 5 }, message := "N2" }] :
        List RouteNote).length ∧
    pointKey ((([{ location := { latitude := 5, longitude := 5 }, message := "N1" },
      { location := { latitude := 5, longitude := 5 }, message := "N2" }] :
        List RouteNote).getD 0 defNote).location) =
      pointKey ((([{ location := { latitude := 5, longitude := 5 }, message := "N1" },
        { location := { latitude := 5, longitude := 5 }, message := "N2" }] :
          List RouteNote).getD 1 defNote).location) ∧
    (routeChatReplies []
      [{ location := { latitude := 5, longitude := 5 }, message := "N1" },
        { location := { latitude := 5, longitude := 5 }, message := "N2" }]).getD 1 [] ≠ [] :=
  ⟨by decide, by decide, by decide,
    routeChat_no_double_empty []
      [{ location := { latitude := 5, longitude := 5 }, message := "N1" },
        { location := { latitude := 5, longitude := 5 }, message := "N2" }]
      0 1 (by decide) (by decide) (by decide)⟩

/-- C10: the feature counter is bumped at most once per received point,
so every summary satisfies feature_count ≤ point_count. -/
theorem recordRoute_feature_count_le (fl : List Feature) (msgs : List PointMsg) (e : ℕ) :
    (recordRoute fl msgs e).feature_count ≤ (recordRoute fl msgs e).point_count := by
  suffices h : ∀ (ms : List PointMsg) (s : RecAcc),
      s.feature_count ≤ s.point_count →
      (ms.foldl (recordStep fl) s).feature_count ≤ (ms.foldl (recordStep fl) s).point_count by
    simpa [recordRoute] using h msgs _ le_rfl
  intro ms
  induction ms with
  | nil => intro s hs; simpa using hs
  | cons m rest ih =>
    intro s hs
    refine ih _ ?_
    simp only [recordStep]
    split <;> omega

/-- C4 (failing input evaluated): a stream whose first coordinate is
missing its latitude is not rejected — `recordRoute` completes normally
and returns a summary with distance 0 (the NaN produced by the undefined
field is turned into 0 by the `|0` cast), counter to the spec's
invalid-argument requirement. -/
theorem recordRoute_malformed_completes :
    recordRoute []
      [{ latitude := none, longitude := some 0 },
        { latitude := some 0, longitude := some 0 }] 0 =
      { point_count := 2, feature_count := 0, distance := 0, elapsed_time := 0 } := rfl

/-! ## Analytic lemmas for the haversine distance -/

theorem arctan_nonneg (x : ℝ) (hx : 0 ≤ x) : 0 ≤ Real.arctan x := by
  have h := Real.arctan_strictMono.monotone hx
  rwa [Real.arctan_zero] at h

theorem atan2_nonneg (y x : ℝ) (hy : 0 ≤ y) : 0 ≤ atan2 y x := by
  unfold atan2
  split_ifs with h1 h2 h3 h4 <;>
    first
      | exact arctan_nonneg _ (div_nonneg hy (le_of_lt h1))
      | exact le_refl 0
      | linarith [Real.pi_pos, Real.neg_pi_div_two_lt_arctan (y / x)]

theorem atan2_one_zero : atan2 1 0 = Real.pi / 2 := by
  norm_num [atan2]

theorem atan2_zero_one : atan2 0 1 = 0 := by
  norm_num [atan2, Real.arctan_zero]

theorem havA_comm (l1 l2 m1 m2 : ℝ) : havA l1 l2 m1 m2 = havA l2 l1 m2 m1 := by
  unfold havA
  have hs : ∀ u v : ℝ, Real.sin ((u - v) / 2) = -Real.sin ((v - u) / 2) := by
    intro u v
    rw [show (u - v) / 2 = -((v - u) / 2) by ring, Real.sin_neg]
  rw [hs l2 l1, hs m2 m1]
  ring

theorem getDistance_comm (a b : Point) : getDistance a b = getDistance b a := by
  simp only [getDistance]
  rw [havA_comm]

theorem havA_self (u v : ℝ) : havA u u v v = 0 := by
  simp [havA, sub_self]

theorem getDistance_self (a : Point) : getDistance a a = 0 := by
  simp only [getDistance]
  rw [havA_self]
  simp [Real.sqrt_zero, Real.sqrt_one, atan2_zero_one]

theorem getDistance_nonneg (a b : Point) : 0 ≤ getDistance a b := by
  simp only [getDistance]
  exact mul_nonneg (by norm_num)
    (mul_nonneg (by norm_num) (atan2_nonneg _ _ (Real.sqrt_nonneg _)))

theorem toRadians_zero : toRadians (((0 : ℤ) : ℝ) / COORD_FACTOR) = 0 := by
  simp [toRadians, COORD_FACTOR]

theorem toRadians_antipode : toRadians (((1800000000 : ℤ) : ℝ) / COORD_FACTOR) = Real.pi := by
  have h : ((1800000000 : ℤ) : ℝ) / COORD_FACTOR = 180 := by
    norm_num [COORD_FACTOR]
  rw [toRadians, h]
  ring

theorem getDistance_origin_antipode :
    getDistance originPt antipodePt = 6371000 * Real.pi := by
  simp only [getDistance, originPt, antipodePt]
  rw [toRadians_zero, toRadians_antipode]
  have hA : havA 0 0 0 Real.pi = 1 := by
    simp [havA, Real.sin_pi_div_two]
  rw [hA]
  norm_num [Real.sqrt_one, Real.sqrt_zero, atan2_one_zero]
  ring

/-! ## The distance accumulated by recordRoute -/

theorem getDistanceMsg_toMsg (p q : Point) :
    getDistanceMsg p.toMsg q.toMsg = some (getDistance p q) := rfl

theorem fold_dist (fl : List Feature) :
    ∀ (pts : List Point) (s : RecAcc) (x : ℝ) (q : Point),
      s.dist = some x → s.previous = some q.toMsg →
      ((pts.map Point.toMsg).foldl (recordStep fl) s).dist = some (x + segSum q pts) := by
  intro pts
  induction pts with
  | nil =>
    intro s x q hd _
    simp only [List.map_nil, List.foldl_nil, segSum, add_zero]
    exact hd
  | cons p rest ih =>
    intro s x q hd hp
    simp only [List.map_cons, List.foldl_cons]
    have hstep : (recordStep fl s p.toMsg).dist = some (x + getDistance q p) := by
      simp only [recordStep, hp, hd, getDistanceMsg_toMsg, jsAdd]
    have hprev : (recordStep fl s p.toMsg).previous = some p.toMsg := rfl
    rw [ih (recordStep fl s p.toMsg) (x + getDistance q p) p hstep hprev]
    simp only [segSum, add_assoc]

theorem recordRoute_dist (fl : List Feature) (pts : List Point) (e : ℕ) :
    (recordRoute fl (pts.map Point.toMsg) e).distance = jsToInt32 (some (pairSum pts)) := by
  cases pts with
  | nil => rfl
  | cons p rest =>
    simp only [recordRoute, List.map_cons, List.foldl_cons]
    rw [fold_dist fl rest _ 0 p rfl rfl]
    simp only [pairSum, zero_add]

theorem segSum_altList : ∀ (n : ℕ) (b : Bool),
    segSum (if b then antipodePt else originPt) (altList n (!b)) =
      n * (6371000 * Real.pi) := by
  intro n
  induction n with
  | zero =>
    intro b
    simp [altList, segSum]
  | succ n ih =>
    intro b
    simp only [altList, segSum]
    have hd : getDistance (if b then antipodePt else originPt)
        (if (!b) then antipodePt else originPt) = 6371000 * Real.pi := by
      cases b
      · simpa using getDistance_origin_antipode
      · simpa using (getDistance_comm antipodePt originPt).trans getDistance_origin_antipode
    have h2 := ih (!b)
    rw [Bool.not_not] at h2
    rw [hd, Bool.not_not, h2]
    push_cast
    ring

theorem pairSum_alt109 : pairSum (altList 109 false) = 108 * (6371000 * Real.pi) := by
  have heq : pairSum (altList 109 false) = segSum originPt (altList 108 true) := rfl
  rw [heq]
  simpa using segSum_altList 108 false

theorem toInt32_neg_of_big (x : ℝ) (h1 : (2147483648 : ℝ) ≤ x) (h2 : x < 4294967296) :
    toInt32 x < 0 := by
  unfold toInt32 truncTowardZero
  rw [if_pos (le_trans (by norm_num) h1)]
  have hf1 : (2147483648 : ℤ) ≤ ⌊x⌋ := Int.le_floor.mpr (by exact_mod_cast h1)
  have hf2 : ⌊x⌋ < 4294967296 := Int.floor_lt.mpr (by exact_mod_cast h2)
  omega

/-! ## Claim theorems: distance and recordRoute -/

/-- C5: the haversine distance is symmetric, exactly zero when the two
points agree on both fields, and non-negative for all inputs. -/
theorem getDistance_sym_zero_nonneg :
    (∀ a b : Point, getDistance a b = getDistance b a) ∧
    (∀ a : Point, getDistance a a = 0) ∧
    (∀ a b : Point, 0 ≤ getDistance a b) :=
  ⟨getDistance_comm, getDistance_self, getDistance_nonneg⟩

/-- C3 (amended): the distance field equals the accumulated sum of the
segment distances converted once at the end — not per segment — by the
JavaScript `|0` cast, which truncates toward zero and then wraps into the
signed 32-bit range. Because of the wrap the field is NOT non-negative for
every stream (see the counterexample). -/
theorem recordRoute_distance_cast (fl : List Feature) (pts : List Point) (e : ℕ) :
    (recordRoute fl (pts.map Point.toMsg) e).distance = toInt32 (pairSum pts) :=
  recordRoute_dist fl pts e

/-- C3 counterexample: 109 points alternating between (0,0) and its
equatorial antipode accumulate 108 half-circumference segments, about
2.16e9 m ≥ 2^31 m, so the `|0` cast wraps and the returned distance is
negative, refuting "distance ≥ 0 for every possible input stream". -/
theorem recordRoute_distance_negative :
    (recordRoute [] ((altList 109 false).map Point.toMsg) 0).distance < 0 := by
  rw [recordRoute_dist [] (altList 109 false) 0]
  simp only [jsToInt32]
  rw [pairSum_alt109]
  apply toInt32_neg_of_big
  · linarith [Real.pi_gt_d6]
  · linarith [Real.pi_lt_d6]

/-- C8: over zero points `recordRoute` returns all-zero counts and
distance with the separately measured elapsed seconds (a natural number,
hence ≥ 0) and no error; over one point it returns point_count 1,
distance 0, and feature_count 1 exactly when the point matches a named
feature. -/
theorem recordRoute_empty_single (fl : List Feature) (p : Point) (e : ℕ) :
    recordRoute fl [] e =
      { point_count := 0, feature_count := 0, distance := 0, elapsed_time := e } ∧
    recordRoute fl [p.toMsg] e =
      { point_count := 1,
        feature_count := if (checkFeature fl p).name = "" then 0 else 1,
        distance := 0, elapsed_time := e } := by
  constructor
  · simp [recordRoute, jsToInt32_zero]
  · have hfc := checkFeatureMsg_toMsg fl p
    simp only [recordRoute, List.foldl_cons, List.foldl_nil, recordStep, hfc, jsToInt32_zero]
    by_cases hn : (checkFeature fl p).name = ""
    · simp [hn]
    · simp [hn]

end RouteGuide
